import Mathlib

/-!
Verification of the akita pagination / loading-state sample.

The first group of definitions embeds the reactive code of
`src/packages/akita/src/lib/setLoading.ts` (the `setLoading` operator built
from rxjs `defer` + `finalize`, and `StoriesService.add`) as trace semantics
over a single cooperative context: an observable is a function from the
subscriber's cancellation behaviour (`some n` = unsubscribe after receiving
`n` values, `none` = stay subscribed until the source terminates) to the
ordered trace of actions performed during the subscription, together with a
flag telling whether the subscription closed (source terminated or
subscriber unsubscribed).

The second group models the Paginator plugin (ResponseNormalizer,
PageCache, PaginatorController).  Its implementation is not in the
repository sample (only its documentation is), so those definitions are
modelled from the spec.
-/

namespace Akita

/-- How a source terminates on its own: completion, an error (with a code
standing in for the error object), or it never terminates by itself. -/
inductive Term where
  | complete : Term
  | error : Nat → Term
  | never : Term
deriving DecidableEq

/-- Does this termination behaviour close the subscription by itself? -/
def Term.exits : Term → Bool
  | Term.never => false
  | _ => true

/-- One observable action during a subscription, as seen by the world:
a mutation of the store's loading flag (`store.setLoading(b)`), a value
delivered downstream (`next`), an error or completion notification, or
adding a story to the store (`store.add(story)`). -/
inductive Action (α : Type) where
  | setLoading : Bool → Action α
  | next : α → Action α
  | error : Nat → Action α
  | complete : Action α
  | addStory : α → Action α
deriving DecidableEq

/-- Recognizes the loading-flag mutations among the actions. -/
def isSetLoadingAct : Action α → Bool
  | Action.setLoading _ => true
  | _ => false

/-- Recognizes the action `setLoading false`. -/
def isSetFalse : Action α → Bool
  | Action.setLoading false => true
  | _ => false

/-- Recognizes downstream events (values, error, completion): the data
stream as opposed to the store side effects. -/
def isEvent : Action α → Bool
  | Action.next _ => true
  | Action.error _ => true
  | Action.complete => true
  | _ => false

/-- A cold observable, modelled as: given the subscriber's cancellation
behaviour (`some n` = unsubscribe after `n` values, `none` = never
unsubscribe), the trace of actions of the whole subscription and whether the
subscription closed (by source termination or by the unsubscription). -/
abbrev Obs (α : Type) : Type := Option Nat → List (Action α) × Bool

/-- The terminal notification(s) a source delivers downstream. -/
def termEvents : Term → List (Action α)
  | Term.complete => [Action.complete]
  | Term.error e => [Action.error e]
  | Term.never => []

/-- A source that emits the values `vs` in order and then behaves as `t`.
If the subscriber unsubscribes after `n` values and the source still had
that many to deliver, the trace stops there and no terminal notification is
delivered. -/
def ofList (vs : List α) (t : Term) : Obs α := fun cancel =>
  match cancel with
  | some n =>
      if n ≤ vs.length then ((vs.take n).map Action.next, true)
      else (vs.map Action.next ++ termEvents t, t.exits)
  | none => (vs.map Action.next ++ termEvents t, t.exits)

/-- rxjs `defer` whose factory first performs the side effects `pre` at
subscription time and then subscribes to `s`. -/
def deferEff (pre : List (Action α)) (s : Obs α) : Obs α := fun cancel =>
  (pre ++ (s cancel).1, (s cancel).2)

/-- rxjs `finalize(post)`: the side effects `post` run exactly when the
subscription closes — on completion, on error, or on unsubscription — and
never otherwise. -/
def finalizeEff (post : List (Action α)) (s : Obs α) : Obs α := fun cancel =>
  ((s cancel).1 ++ (if (s cancel).2 then post else []), (s cancel).2)

/-- The `setLoading` operator of `setLoading.ts`:
`defer(() => { store.setLoading(true); return source.pipe(finalize(() => store.setLoading(false))); })`.
The store argument is left implicit: `Action.setLoading b` stands for the
call `store.setLoading(b)` on the owning store. -/
def setLoading (s : Obs α) : Obs α :=
  deferEff [Action.setLoading true] (finalizeEff [Action.setLoading false] s)

/-- Action renaming along a function on the emitted values. -/
def Action.map (f : α → β) : Action α → Action β
  | Action.setLoading b => Action.setLoading b
  | Action.next a => Action.next (f a)
  | Action.error e => Action.error e
  | Action.complete => Action.complete
  | Action.addStory a => Action.addStory (f a)

/-- rxjs `map` (and `mapTo` as its constant instance). -/
def mapObs (f : α → β) (s : Obs α) : Obs β := fun cancel =>
  ((s cancel).1.map (Action.map f), (s cancel).2)

/-- The per-value expansion used by `tapObs`: the tap side effects run
before the value is delivered downstream. -/
def tapAct (eff : α → List (Action α)) : Action α → List (Action α)
  | Action.next a => eff a ++ [Action.next a]
  | a => [a]

/-- rxjs `tap`: runs `eff a` as side effects on each value `a`, then
forwards `a` downstream. -/
def tapObs (eff : α → List (Action α)) (s : Obs α) : Obs α := fun cancel =>
  ((s cancel).1.flatMap (tapAct eff), (s cancel).2)

/-- `StoriesService.add` of the sample: calling it performs
`storiesStore.setLoading(true)` synchronously (first component: the actions
performed at call time, before anyone subscribes), and returns
`timer(1000).pipe(mapTo(story)).pipe(tap(s => { setLoading(false); add(s) }))`
(second component).  `timer(1000)` is a source that emits one value and
completes. -/
def add (story : α) : List (Action α) × Obs α :=
  ([Action.setLoading true],
   tapObs (fun s => [Action.setLoading false, Action.addStory s])
     (mapObs (fun _ => story) (ofList [0] Term.complete)))

/-- The externally observable store state: the loading flag and the stored
stories. -/
structure StoreState (α : Type) where
  loading : Bool
  stories : List α
deriving DecidableEq

/-- Run one action against the store state. -/
def applyAction (s : StoreState α) : Action α → StoreState α
  | Action.setLoading b => { s with loading := b }
  | Action.addStory a => { s with stories := s.stories ++ [a] }
  | _ => s

/-- Run a trace of actions against the store state. -/
def applyActions (s : StoreState α) (tr : List (Action α)) : StoreState α :=
  tr.foldl applyAction s

/-- Modelled from the spec: the raw server page-response (input of
ResponseNormalizer, which is not part of the repository sample).  `total`
is optional; `data` is optional here so that its absence can be validated. -/
structure RawResponse (T : Type) where
  perPage : Int
  lastPage : Int
  currentPage : Int
  total : Option Int
  data : Option (List T)
deriving DecidableEq

/-- Modelled from the spec: a normalized page record. -/
structure PageRecord (T : Type) where
  perPage : Int
  lastPage : Int
  currentPage : Int
  total : Int
  data : List T
deriving DecidableEq

/-- Modelled from the spec: the paginator error taxonomy. -/
inductive PaginatorError where
  | validationError : PaginatorError
deriving DecidableEq

/-- Modelled from the spec: ResponseNormalizer (not in the repository
sample).  Fails with a validation error if `data` is absent or
`perPage`/`lastPage` are not positive; otherwise produces the PageRecord,
defaulting a missing `total` to `perPage * lastPage`. -/
def normalize (r : RawResponse T) : Except PaginatorError (PageRecord T) :=
  match r.data with
  | none => Except.error PaginatorError.validationError
  | some d =>
      if 0 < r.perPage ∧ 0 < r.lastPage then
        Except.ok
          { perPage := r.perPage, lastPage := r.lastPage,
            currentPage := r.currentPage,
            total := r.total.getD (r.perPage * r.lastPage), data := d }
      else Except.error PaginatorError.validationError

/-- Modelled from the spec: the paginator configuration toggles
(`withControls()` / `withRange()`). -/
structure PaginatorConfig where
  pagesControls : Bool
  range : Bool
deriving DecidableEq

/-- Modelled from the spec: the pageControls window — a bounded window of
page numbers centered on the current page, clipped to `[1, lastPage]`. -/
def pageControlsList (currentPage lastPage : Int) : List Int :=
  (List.range
      (min lastPage (currentPage + 2) + 1 - max 1 (currentPage - 2)).toNat).map
    (fun (i : Nat) => max 1 (currentPage - 2) + (i : Int))

/-- Modelled from the spec: the emitted pagination view. -/
structure PaginationView (T : Type) where
  currentPage : Int
  perPage : Int
  lastPage : Int
  total : Int
  data : List T
  pageControls : Option (List Int)
  from' : Option Int
  to' : Option Int
deriving DecidableEq

/-- Modelled from the spec: building the pagination view from a page
record, computing `pageControls` and the `from`/`to` range only when the
corresponding configuration toggle is enabled. -/
def mkView (cfg : PaginatorConfig) (r : PageRecord T) : PaginationView T :=
  { currentPage := r.currentPage, perPage := r.perPage,
    lastPage := r.lastPage, total := r.total, data := r.data,
    pageControls :=
      if cfg.pagesControls then
        some (pageControlsList r.currentPage r.lastPage)
      else none,
    from' :=
      if cfg.range then
        some (if r.total = 0 then 0 else (r.currentPage - 1) * r.perPage + 1)
      else none,
    to' :=
      if cfg.range then some (min (r.currentPage * r.perPage) r.total)
      else none }

/-- Modelled from the spec: the state a PaginatorController carries for the
claims about `getPage` — the page cache (an association from page key to
record) and the last `lastPage` learned from a fetch. -/
structure PaginatorState (T : Type) where
  cache : List (Nat × PageRecord T)
  lastPageKnown : Option Int
deriving DecidableEq

/-- Modelled from the spec: one `getPage` emission for a requested `page`
(PaginatorController is not in the repository sample).  On a cache hit the
stored record is served; on a miss the caller-supplied request function is
invoked, the response normalized, and the record cached on success; a
validation failure is surfaced and nothing is cached.  The final boolean
reports whether the request function was invoked. -/
def getPageStep (cfg : PaginatorConfig) (st : PaginatorState T)
    (reqFn : Nat → RawResponse T) (page : Nat) :
    Except PaginatorError (PaginationView T) × PaginatorState T × Bool :=
  match List.lookup page st.cache with
  | some r => (Except.ok (mkView cfg r), st, false)
  | none =>
      match normalize (reqFn page) with
      | Except.error e => (Except.error e, st, true)
      | Except.ok r =>
          (Except.ok (mkView cfg r),
           { cache := (page, r) :: st.cache, lastPageKnown := some r.lastPage },
           true)

/-- Modelled from the spec: the race-resolution state of a controller with
in-flight fetches — the currently requested page, the fetches in flight
(with the response each will deliver), the cache, and the views emitted to
the subscriber so far (paired with the page they show). -/
structure RaceState (T : Type) where
  current : Nat
  inflight : List (Nat × RawResponse T)
  cache : List (Nat × PageRecord T)
  emitted : List (Nat × PageRecord T)
deriving DecidableEq

/-- Modelled from the spec: `setPage n` — the new page becomes current; a
cached page is emitted at once, otherwise a fetch for it starts (if none is
already in flight).  Any fetch still in flight for an older page is left
running but is now stale. -/
def raceSetPage (reqFn : Nat → RawResponse T) (st : RaceState T) (n : Nat) :
    RaceState T :=
  match List.lookup n st.cache with
  | some r => { st with current := n, emitted := st.emitted ++ [(n, r)] }
  | none =>
      { st with
        current := n,
        inflight :=
          if (List.lookup n st.inflight).isSome then st.inflight
          else st.inflight ++ [(n, reqFn n)] }

/-- Modelled from the spec: the in-flight fetch for page `p` resolves.  Its
normalized record is stored in the cache under key `p`; it is emitted to
the subscriber only when `p` is still the current page — a stale result is
cached but never emitted. -/
def raceResolve (st : RaceState T) (p : Nat) : RaceState T :=
  match List.lookup p st.inflight with
  | none => st
  | some resp =>
      let rest := st.inflight.filter (fun q => q.1 != p)
      match normalize resp with
      | Except.error _ => { st with inflight := rest }
      | Except.ok r =>
          { st with
            inflight := rest,
            cache := (p, r) :: st.cache,
            emitted :=
              if p = st.current then st.emitted ++ [(p, r)] else st.emitted }

theorem setLoading_run (s : Obs α) (c : Option Nat) :
    setLoading s c =
      (Action.setLoading true ::
        ((s c).1 ++ (if (s c).2 then [Action.setLoading false] else [])),
       (s c).2) := rfl

theorem countP_termEvents (p : Action α → Bool) (t : Term)
    (hc : p Action.complete = false) (he : ∀ e, p (Action.error e) = false) :
    (termEvents (α := α) t).countP p = 0 := by
  cases t <;> simp [termEvents, List.countP_cons, hc, he]

theorem countP_map_next (p : Action α → Bool) (vs : List α)
    (hn : ∀ a, p (Action.next a) = false) :
    (vs.map Action.next).countP p = 0 := by
  induction vs with
  | nil => rfl
  | cons v vs ih => simp [List.countP_cons, hn, ih]

theorem ofList_countP_setFalse (vs : List α) (t : Term) (c : Option Nat) :
    ((ofList vs t c).1).countP isSetFalse = 0 := by
  have hn : ∀ a : α, isSetFalse (Action.next a) = false := fun _ => rfl
  have hc : isSetFalse (Action.complete : Action α) = false := rfl
  have he : ∀ e, isSetFalse (Action.error (α := α) e) = false := fun _ => rfl
  rcases c with _ | n
  · simp [ofList, List.countP_append, countP_termEvents _ _ hc he,
      countP_map_next _ _ hn]
  · by_cases h : n ≤ vs.length
    · simp only [ofList]
      rw [if_pos h]
      exact countP_map_next _ (vs.take n) hn
    · simp [ofList, h, List.countP_append, countP_termEvents _ _ hc he,
        countP_map_next _ _ hn]

theorem getLast?_cons_concat (x y : β) (l : List β) :
    (x :: (l ++ [y])).getLast? = some y := by
  rw [← List.cons_append]
  exact List.getLast?_concat _

/-- Claim C1: for a unit of work wrapped by `setLoading`, the owner's
loading flag is set to `true` immediately when the work starts (first action
of every subscription trace), and is set to `false` exactly once whenever
the subscription exits — by completion, error, or unsubscription — as the
final action, and never when the subscription does not exit. -/
theorem setLoading_flag_protocol (vs : List α) (t : Term) (cancel : Option Nat) :
    (setLoading (ofList vs t) cancel).1.head? = some (Action.setLoading true)
    ∧ (setLoading (ofList vs t) cancel).1.countP isSetFalse
        = (if (setLoading (ofList vs t) cancel).2 then 1 else 0)
    ∧ ((setLoading (ofList vs t) cancel).2 = true →
        (setLoading (ofList vs t) cancel).1.getLast?
          = some (Action.setLoading false)) := by
  rw [setLoading_run]
  refine ⟨rfl, ?_, ?_⟩
  · rcases h : (ofList vs t cancel).2 <;>
      simp [h, List.countP_cons, List.countP_append, ofList_countP_setFalse,
        isSetFalse]
  · intro h
    have h2 : (ofList vs t cancel).2 = true := h
    simp only [h2, eq_self_iff_true, if_true]
    exact getLast?_cons_concat _ _ _

/-- Witness for C1 at a concrete run: source emitting two values then
completing, subscriber staying subscribed. -/
theorem setLoading_flag_protocol_witness :
    (setLoading (ofList ([1, 2] : List Nat) Term.complete) none).1.head?
        = some (Action.setLoading true)
    ∧ (setLoading (ofList ([1, 2] : List Nat) Term.complete) none).1.getLast?
        = some (Action.setLoading false) :=
  ⟨(setLoading_flag_protocol [1, 2] Term.complete none).1,
   (setLoading_flag_protocol [1, 2] Term.complete none).2.2 rfl⟩

/-- Claim C9: `setLoading` is a pass-through decorator: for every source
observable and every subscriber behaviour, the downstream event stream
(values, error, completion) of the wrapped observable is exactly the
source's, in the source's order, and the subscription closes exactly when
the source's does. -/
theorem setLoading_passthrough (s : Obs α) (cancel : Option Nat) :
    (setLoading s cancel).1.filter isEvent = (s cancel).1.filter isEvent
    ∧ (setLoading s cancel).2 = (s cancel).2 := by
  rw [setLoading_run]
  refine ⟨?_, rfl⟩
  rcases h : (s cancel).2 <;> simp [h, List.filter_append, isEvent]

/-- Claim C8: the only side effect `setLoading` adds is the mutation of the
owner's loading flag: restricted to the non-loading-flag actions (values,
errors, completion, store additions), the trace of the wrapped observable is
exactly the trace of the source, and the closing of the subscription is
unchanged. -/
theorem setLoading_frame (s : Obs α) (cancel : Option Nat) :
    (setLoading s cancel).1.filter (fun a => !(isSetLoadingAct a))
        = (s cancel).1.filter (fun a => !(isSetLoadingAct a))
    ∧ (setLoading s cancel).2 = (s cancel).2 := by
  rw [setLoading_run]
  refine ⟨?_, rfl⟩
  rcases h : (s cancel).2 <;> simp [h, List.filter_append, isSetLoadingAct]

/-- Claim C10: `StoriesService.add` sets the loading flag to `true`
synchronously at call time (before any subscription); on the success path —
the subscriber stays subscribed and the timer fires — the flag is reset to
`false` and the story added, both strictly before the value is delivered;
and if the subscription is cancelled before the timer fires (or the
observable is never subscribed, so that only the call-time actions run), no
further action happens and the loading flag remains `true`. -/
theorem add_loading_paths (story : α) :
    (add story).1 = [Action.setLoading true]
    ∧ ((add story).2 none).1
        = [Action.setLoading false, Action.addStory story,
           Action.next story, Action.complete]
    ∧ ((add story).2 (some 0)).1 = []
    ∧ (applyActions ⟨false, []⟩
         ((add story).1 ++ ((add story).2 (some 0)).1)).loading = true :=
  ⟨rfl, rfl, rfl, rfl⟩

theorem normalize_invalid (r : RawResponse T)
    (hbad : r.data = none ∨ r.perPage ≤ 0 ∨ r.lastPage ≤ 0) :
    normalize r = Except.error PaginatorError.validationError := by
  cases hd : r.data with
  | none => simp only [normalize, hd]
  | some d =>
      rcases hbad with h | h | h
      · rw [hd] at h
        exact absurd h (by simp)
      · simp only [normalize, hd]
        rw [if_neg (by omega : ¬(0 < r.perPage ∧ 0 < r.lastPage))]
      · simp only [normalize, hd]
        rw [if_neg (by omega : ¬(0 < r.perPage ∧ 0 < r.lastPage))]

theorem mem_pageControlsList (cp lp x : Int) :
    x ∈ pageControlsList cp lp ↔
      max 1 (cp - 2) ≤ x ∧ x ≤ min lp (cp + 2) := by
  unfold pageControlsList
  rw [List.mem_map]
  constructor
  · rintro ⟨i, hi, rfl⟩
    rw [List.mem_range] at hi
    omega
  · rintro ⟨h1, h2⟩
    refine ⟨(x - max 1 (cp - 2)).toNat, ?_, ?_⟩
    · rw [List.mem_range]
      omega
    · omega

theorem mkView_controls (cfg : PaginatorConfig) (r : PageRecord T)
    (hc : cfg.pagesControls = true) (h1 : 1 ≤ r.currentPage)
    (h2 : r.currentPage ≤ r.lastPage) :
    ∃ l, (mkView cfg r).pageControls = some l
      ∧ (mkView cfg r).currentPage ∈ l
      ∧ ∀ x ∈ l, 1 ≤ x ∧ x ≤ (mkView cfg r).lastPage := by
  refine ⟨pageControlsList r.currentPage r.lastPage,
    by simp [mkView, hc], ?_, ?_⟩
  · show r.currentPage ∈ pageControlsList r.currentPage r.lastPage
    rw [mem_pageControlsList]
    omega
  · intro x hx
    rw [mem_pageControlsList] at hx
    show 1 ≤ x ∧ x ≤ r.lastPage
    omega

/-- Claim C3: a `getPage` emission for a page already in the cache does not
invoke the caller-supplied request function (the invocation flag is
`false`) and serves the previously stored record unchanged, leaving the
controller state untouched. -/
theorem getPage_cache_hit (cfg : PaginatorConfig) (st : PaginatorState T)
    (reqFn : Nat → RawResponse T) (page : Nat) (r : PageRecord T)
    (h : List.lookup page st.cache = some r) :
    getPageStep cfg st reqFn page = (Except.ok (mkView cfg r), st, false) := by
  simp only [getPageStep, h]

/-- Witness for C3: a cache holding page 3 is served from the cache. -/
theorem getPage_cache_hit_witness :
    getPageStep ⟨true, true⟩
        (⟨[(3, ⟨10, 10, 3, 100, [7]⟩)], some 10⟩ : PaginatorState Nat)
        (fun _ => ⟨0, 0, 0, none, none⟩) 3
      = (Except.ok (mkView ⟨true, true⟩ ⟨10, 10, 3, 100, [7]⟩),
         ⟨[(3, ⟨10, 10, 3, 100, [7]⟩)], some 10⟩, false) :=
  getPage_cache_hit ⟨true, true⟩ ⟨[(3, ⟨10, 10, 3, 100, [7]⟩)], some 10⟩
    (fun _ => ⟨0, 0, 0, none, none⟩) 3 ⟨10, 10, 3, 100, [7]⟩ rfl

/-- Claim C4: when the raw response omits `total` (and is otherwise valid),
the normalized record's `total` equals `perPage * lastPage`. -/
theorem normalize_total_default (r : RawResponse T) (d : List T)
    (hdata : r.data = some d) (htotal : r.total = none)
    (hpp : 0 < r.perPage) (hlp : 0 < r.lastPage) :
    ∃ rec, normalize r = Except.ok rec
      ∧ rec.total = r.perPage * r.lastPage := by
  simp only [normalize, hdata]
  rw [if_pos ⟨hpp, hlp⟩]
  exact ⟨_, rfl, by simp [htotal]⟩

/-- Witness for C4: normalizing `{perPage:10, lastPage:10, currentPage:3,
data:[...]}` with no `total` yields `total = 100`. -/
theorem normalize_total_default_witness :
    ∃ rec, normalize (⟨10, 10, 3, none, some [1, 2, 3]⟩ : RawResponse Nat)
        = Except.ok rec ∧ rec.total = 100 := by
  obtain ⟨rec, hok, htot⟩ :=
    normalize_total_default (⟨10, 10, 3, none, some [1, 2, 3]⟩ : RawResponse Nat)
      [1, 2, 3] rfl rfl (by norm_num) (by norm_num)
  exact ⟨rec, hok, by simpa using htot⟩

/-- Claim C5: with range computation enabled, every pagination view emitted
by `getPage` — whether served from the cache or freshly fetched — carries
`from = (currentPage - 1) * perPage + 1` (or `0` when `total = 0`) and
`to = min (currentPage * perPage) total`. -/
theorem getPage_range_formula (cfg : PaginatorConfig) (st : PaginatorState T)
    (reqFn : Nat → RawResponse T) (page : Nat) (v : PaginationView T)
    (st' : PaginatorState T) (b : Bool)
    (hr : cfg.range = true)
    (h : getPageStep cfg st reqFn page = (Except.ok v, st', b)) :
    v.from' = some (if v.total = 0 then 0
                    else (v.currentPage - 1) * v.perPage + 1)
    ∧ v.to' = some (min (v.currentPage * v.perPage) v.total) := by
  unfold getPageStep at h
  split at h
  next r hc =>
    simp only [Prod.mk.injEq, Except.ok.injEq] at h
    obtain ⟨rfl, -, -⟩ := h
    simp [mkView, hr]
  next hc =>
    split at h
    next e hn => simp at h
    next r hn =>
      simp only [Prod.mk.injEq, Except.ok.injEq] at h
      obtain ⟨rfl, -, -⟩ := h
      simp [mkView, hr]

/-- Witness for C5: a concrete cache-hit emission for page 3 with
`perPage = 10`, `total = 100` has `from = 21` and `to = 30`. -/
theorem getPage_range_formula_witness :
    (mkView ⟨true, true⟩ (⟨10, 10, 3, 100, [7]⟩ : PageRecord Nat)).from'
        = some 21
    ∧ (mkView ⟨true, true⟩ (⟨10, 10, 3, 100, [7]⟩ : PageRecord Nat)).to'
        = some 30 := by
  have h := getPage_range_formula ⟨true, true⟩
    (⟨[(3, ⟨10, 10, 3, 100, [7]⟩)], some 10⟩ : PaginatorState Nat)
    (fun _ => ⟨0, 0, 0, none, none⟩) 3
    (mkView ⟨true, true⟩ ⟨10, 10, 3, 100, [7]⟩)
    ⟨[(3, ⟨10, 10, 3, 100, [7]⟩)], some 10⟩ false rfl rfl
  refine ⟨h.1.trans ?_, h.2.trans ?_⟩ <;> norm_num [mkView]

/-- Claim C6: with page controls enabled, every pagination view emitted by
`getPage` whose current page is within `[1, lastPage]` carries a
`pageControls` sequence that contains the current page and contains no
value outside `[1, lastPage]`. -/
theorem getPage_controls_window (cfg : PaginatorConfig) (st : PaginatorState T)
    (reqFn : Nat → RawResponse T) (page : Nat) (v : PaginationView T)
    (st' : PaginatorState T) (b : Bool)
    (hc : cfg.pagesControls = true)
    (h : getPageStep cfg st reqFn page = (Except.ok v, st', b))
    (h1 : 1 ≤ v.currentPage) (h2 : v.currentPage ≤ v.lastPage) :
    ∃ l, v.pageControls = some l ∧ v.currentPage ∈ l
      ∧ ∀ x ∈ l, 1 ≤ x ∧ x ≤ v.lastPage := by
  unfold getPageStep at h
  split at h
  next r hcache =>
    simp only [Prod.mk.injEq, Except.ok.injEq] at h
    obtain ⟨rfl, -, -⟩ := h
    exact mkView_controls cfg r hc h1 h2
  next hcache =>
    split at h
    next e hn => simp at h
    next r hn =>
      simp only [Prod.mk.injEq, Except.ok.injEq] at h
      obtain ⟨rfl, -, -⟩ := h
      exact mkView_controls cfg r hc h1 h2

/-- Witness for C6: the view for page 3 of 10 carries a window containing
page 3 with all members inside `[1, 10]`. -/
theorem getPage_controls_window_witness :
    ∃ l, (mkView ⟨true, true⟩
            (⟨10, 10, 3, 100, [7]⟩ : PageRecord Nat)).pageControls = some l
      ∧ (mkView ⟨true, true⟩
            (⟨10, 10, 3, 100, [7]⟩ : PageRecord Nat)).currentPage ∈ l
      ∧ ∀ x ∈ l, 1 ≤ x
          ∧ x ≤ (mkView ⟨true, true⟩
                   (⟨10, 10, 3, 100, [7]⟩ : PageRecord Nat)).lastPage :=
  getPage_controls_window ⟨true, true⟩
    (⟨[(3, ⟨10, 10, 3, 100, [7]⟩)], some 10⟩ : PaginatorState Nat)
    (fun _ => ⟨0, 0, 0, none, none⟩) 3
    (mkView ⟨true, true⟩ ⟨10, 10, 3, 100, [7]⟩)
    ⟨[(3, ⟨10, 10, 3, 100, [7]⟩)], some 10⟩ false rfl rfl
    (by norm_num [mkView]) (by norm_num [mkView])

/-- Claim C7: a `getPage` emission that misses the cache and receives a
malformed raw response — `data` absent, or `perPage`/`lastPage` not
positive — surfaces a validation error to the subscriber, leaves the cache
(the whole controller state) unmodified, and stores nothing. -/
theorem getPage_validation_surfaced (cfg : PaginatorConfig)
    (st : PaginatorState T) (reqFn : Nat → RawResponse T) (page : Nat)
    (hmiss : List.lookup page st.cache = none)
    (hbad : (reqFn page).data = none ∨ (reqFn page).perPage ≤ 0
        ∨ (reqFn page).lastPage ≤ 0) :
    getPageStep cfg st reqFn page
      = (Except.error PaginatorError.validationError, st, true) := by
  simp only [getPageStep, hmiss, normalize_invalid _ hbad]

/-- Witness for C7: a response with no `data` for an uncached page yields a
validation error and an unchanged empty state. -/
theorem getPage_validation_surfaced_witness :
    getPageStep ⟨true, true⟩ (⟨[], none⟩ : PaginatorState Nat)
        (fun _ => ⟨10, 10, 3, none, none⟩) 3
      = (Except.error PaginatorError.validationError, ⟨[], none⟩, true) :=
  getPage_validation_surfaced ⟨true, true⟩ ⟨[], none⟩
    (fun _ => ⟨10, 10, 3, none, none⟩) 3 rfl (Or.inl rfl)

/-- Claim C2: when the fetch for a page that is no longer the current page
resolves, its record is stored in the cache under its own key but nothing
is emitted to the subscriber — the last `setPage` call strictly wins and
the stale result never becomes the active view. -/
theorem raceResolve_stale (st : RaceState T) (p : Nat) (resp : RawResponse T)
    (r : PageRecord T)
    (hin : List.lookup p st.inflight = some resp)
    (hnorm : normalize resp = Except.ok r)
    (hne : p ≠ st.current) :
    (raceResolve st p).emitted = st.emitted
    ∧ List.lookup p (raceResolve st p).cache = some r := by
  simp only [raceResolve, hin, hnorm]
  constructor
  · simp [hne]
  · simp [List.lookup]

/-- Witness for C2: page 5's fetch resolves while page 7 is current — the
record lands in the cache under key 5 and nothing is emitted. -/
theorem raceResolve_stale_witness :
    (raceResolve
        (⟨7, [(5, ⟨10, 10, 5, some 100, some [50]⟩)], [], []⟩ : RaceState Nat)
        5).emitted = []
    ∧ List.lookup 5
        (raceResolve
          (⟨7, [(5, ⟨10, 10, 5, some 100, some [50]⟩)], [], []⟩ : RaceState Nat)
          5).cache = some ⟨10, 10, 5, 100, [50]⟩ :=
  raceResolve_stale ⟨7, [(5, ⟨10, 10, 5, some 100, some [50]⟩)], [], []⟩ 5
    ⟨10, 10, 5, some 100, some [50]⟩ ⟨10, 10, 5, 100, [50]⟩ rfl rfl
    (by decide)

end Akita
